import Mathlib

/-!
Shallow embedding of the partition-discovery and streaming-export pipeline of
`miway_drive_browser.py` (MiWay data dashboard).

The remote Drive tree is modelled as a function from a node id to the list of its
child entries, in the order the listing API returns them.  Network download plus
parquet decoding (`drive_download_bytes` followed by `pq.read_table(...).to_pandas()`)
is modelled as an abstract fallible function from a file id and an optional column
projection to a `Table`.  The local filesystem touched by the export is modelled as
an association list from path to CSV lines together with a log of directory-creation
calls.  Python `date` objects are modelled as year/month/day triples with proleptic
Gregorian successor arithmetic; Python `time` objects keep only the fields the code
reads.
-/

namespace MiWay

/-- Python `datetime.date`: a year/month/day triple.  Python guarantees validity at
construction; theorems that need calendar arithmetic take validity as a hypothesis
where it matters. -/
structure Date where
  year : Nat
  month : Nat
  day : Nat
deriving DecidableEq, Repr

/-- Leap-year test of the Gregorian calendar, as used by Python's `datetime`. -/
def isLeap (y : Nat) : Bool :=
  (y % 4 == 0 && y % 100 != 0) || (y % 400 == 0)

/-- Number of days in month `m` of year `y` (months are 1-based). -/
def daysInMonth (y m : Nat) : Nat :=
  if m == 2 then (if isLeap y then 29 else 28)
  else if m == 4 || m == 6 || m == 9 || m == 11 then 30
  else 31

/-- Days in all years strictly before year `y` (proleptic Gregorian, year 1 first). -/
def daysBeforeYear (y : Nat) : Nat :=
  365 * (y - 1) + (y - 1) / 4 + (y - 1) / 400 - (y - 1) / 100

/-- Days in the months of year `y` strictly before month `m`. -/
def daysBeforeMonth (y m : Nat) : Nat :=
  (List.range (m - 1)).foldl (fun acc i => acc + daysInMonth y (i + 1)) 0

/-- Ordinal day number of a date, mirroring Python's `date.toordinal`. -/
def Date.toOrdinal (d : Date) : Nat :=
  daysBeforeYear d.year + daysBeforeMonth d.year d.month + d.day

/-- Python `d + timedelta(days=1)`: successor date in the Gregorian calendar. -/
def Date.succ (d : Date) : Date :=
  if d.day < daysInMonth d.year d.month then ⟨d.year, d.month, d.day + 1⟩
  else if d.month < 12 then ⟨d.year, d.month + 1, 1⟩
  else ⟨d.year + 1, 1, 1⟩

/-- Python date comparison `a <= b`: lexicographic on (year, month, day). -/
def Date.le (a b : Date) : Bool :=
  decide (a.year < b.year) ||
    (decide (a.year = b.year) &&
      (decide (a.month < b.month) ||
        (decide (a.month = b.month) && decide (a.day ≤ b.day))))

/-- Python date comparison `a < b`: lexicographic on (year, month, day). -/
def Date.lt (a b : Date) : Bool :=
  decide (a.year < b.year) ||
    (decide (a.year = b.year) &&
      (decide (a.month < b.month) ||
        (decide (a.month = b.month) && decide (a.day < b.day))))

/-- Python `min(a, b)` on dates: returns `a` unless `b < a`. -/
def dateMin (a b : Date) : Date :=
  if Date.lt b a then b else a

/-- Python `max(a, b)` on dates: returns `a` unless `a < b`. -/
def dateMax (a b : Date) : Date :=
  if Date.lt a b then b else a

/-- Left-pad the decimal rendering of `n` with zeros to width `w`
(Python's `%02d` / 4-digit ISO year rendering). -/
def zeroPad (w n : Nat) : String :=
  let s := toString n
  String.mk (List.replicate (w - s.length) '0' ++ s.toList)

/-- Python `date.isoformat()`: `YYYY-MM-DD`. -/
def Date.isoformat (d : Date) : String :=
  zeroPad 4 d.year ++ "-" ++ zeroPad 2 d.month ++ "-" ++ zeroPad 2 d.day

/-- Python `datetime.time`, restricted to the fields the script reads. -/
structure Time where
  hour : Nat
  minute : Nat
deriving DecidableEq, Repr

/-- Source `time_to_hour(t) = int(t.hour)`. -/
def time_to_hour (t : Time) : Nat := t.hour

/-- Source `hour_folder_name(h)` = `f"hour=\x7bh:02d\x7d"`. -/
def hour_folder_name (h : Nat) : String := "hour=" ++ zeroPad 2 h

/-- Source `date_folder_name(d)` = `f"date=\x7bd.isoformat()\x7d"`. -/
def date_folder_name (d : Date) : String := "date=" ++ d.isoformat

/-- Body of `daterange`, driven by explicit fuel (the Python generator's `while d <= d1`
loop advances one day per iteration, so `d1.toOrdinal + 1 - d0.toOrdinal` steps
suffice for valid dates). -/
def daterangeAux : Nat → Date → Date → List Date
  | 0, _, _ => []
  | fuel + 1, d, d1 => if Date.le d d1 then d :: daterangeAux fuel d.succ d1 else []

/-- Source `daterange(d0, d1)`: yields `d0, d0+1day, ...` while the current date is `<= d1`;
yields nothing when `d0 > d1`. -/
def daterange (d0 d1 : Date) : List Date :=
  daterangeAux (d1.toOrdinal + 1 - d0.toOrdinal) d0 d1

/-- One entry returned by the Drive listing API: id, name, and whether its mimeType
is the folder mimeType. -/
structure DirEntry where
  id : String
  name : String
  isFolder : Bool
deriving DecidableEq, Repr

/-- The remote Drive tree: the children (in API listing order, all pages
concatenated) of each node id.  `drive_list_children`'s pagination loop is modelled
as the already-concatenated list. -/
def Drive : Type := String → List DirEntry

/-- Source `drive_list_children(service, parent_id, only_folders)`: children of `parent_id`,
filtered to folders (`some true`), non-folders (`some false`), or unfiltered
(`none`). -/
def drive_list_children (drive : Drive) (parent_id : String)
    (only_folders : Option Bool) : List DirEntry :=
  match only_folders with
  | some true => (drive parent_id).filter (fun e => e.isFolder)
  | some false => (drive parent_id).filter (fun e => !e.isFolder)
  | none => drive parent_id

/-- Source `drive_find_child_folder_id(service, parent_id, folder_name)`: the id of the
first folder child of `parent_id` named exactly `folder_name`, or `none` when there
is no match (`files[0]["id"] if files else None`). -/
def drive_find_child_folder_id (drive : Drive) (parent_id folder_name : String) :
    Option String :=
  (((drive parent_id).filter
      (fun e => e.isFolder && e.name == folder_name)).head?).map (fun e => e.id)

/-- Python truthiness test `not x` for an `Optional[str]`: true on `None` and on the
empty string. -/
def pyFalsyStrOpt : Option String → Bool
  | none => true
  | some s => s == ""

/-- Source `resolve_folder_path(service, root_id, agency_slug, feed)`: three sequential
child-folder lookups (`root -> agency_slug -> "raw" -> feed`); each of the first two
is guarded by `if not <id>: return None`, and the third lookup's result is returned
as-is. -/
def resolve_folder_path (drive : Drive) (root_id agency_slug feed : String) :
    Option String :=
  match drive_find_child_folder_id drive root_id agency_slug with
  | none => none
  | some agency_id =>
    if agency_id = "" then none
    else
      match drive_find_child_folder_id drive agency_id "raw" with
      | none => none
      | some raw_id =>
        if raw_id = "" then none
        else drive_find_child_folder_id drive raw_id feed

/-- Python `s.split(sep)` for a single-character separator, on character lists
(splitting on every occurrence, keeping empty fragments). -/
def pySplitAux (sep : Char) : List Char → List Char → List (List Char)
  | [], acc => [acc.reverse]
  | c :: rest, acc =>
    if c == sep then acc.reverse :: pySplitAux sep rest []
    else pySplitAux sep rest (c :: acc)

/-- Python `s.split(sep)` for a single-character separator. -/
def pySplit (s : String) (sep : Char) : List String :=
  (pySplitAux sep s.toList []).map (fun cs => String.mk cs)

/-- Python `s.strip()`: drop whitespace from both ends. -/
def pyStrip (s : String) : List Char :=
  (((s.toList.dropWhile Char.isWhitespace).reverse).dropWhile Char.isWhitespace).reverse

/-- Python `s.endswith(suffix)`. -/
def pyEndsWith (s suffix : String) : Bool :=
  suffix.toList.isSuffixOf s.toList

/-- Python `int(s)` digit run: a nonempty run of decimal digits.  (Digit-group
underscores and non-ASCII digits, which Python also accepts, do not occur in
`hour=HH` folder names and are not modelled.) -/
def pyIntNat (cs : List Char) : Option Nat :=
  if cs ≠ [] && cs.all Char.isDigit then
    some (cs.foldl (fun acc c => acc * 10 + (c.toNat - 48)) 0)
  else none

/-- Python `int(s)`: optional surrounding whitespace, optional sign, then digits. -/
def pyInt (s : String) : Option Int :=
  match pyStrip s with
  | [] => none
  | '+' :: rest => (pyIntNat rest).map Int.ofNat
  | '-' :: rest => (pyIntNat rest).map (fun n => -(Int.ofNat n))
  | cs => (pyIntNat cs).map Int.ofNat

/-- The `try: hh = int(hname.split("=")[1]) except: continue` step: `none` when the
name has no `=` (IndexError) or the fragment after the first `=` is not an integer
literal (ValueError). -/
def extractHour (hname : String) : Option Int :=
  match (pySplit hname '=')[1]? with
  | none => none
  | some s => pyInt s

/-- Python `range(a, b)` as a list. -/
def pyRange (a b : Nat) : List Nat := List.range' a (b - a)

/-- The hour-bounds block of `list_candidate_parquet_files`:
`set(range(min(h0,h1), max(h0,h1)+1))` when both times are supplied (a non-`None`
`datetime.time` is always truthy in Python 3.5+), else `None`. -/
def hourRangeOf (start_time end_time : Option Time) : Option (List Nat) :=
  match start_time, end_time with
  | some t0, some t1 =>
    some (pyRange (min (time_to_hour t0) (time_to_hour t1))
      (max (time_to_hour t0) (time_to_hour t1) + 1))
  | _, _ => none

/-- The loop guard `hour_range is not None and hh not in hour_range`, phrased
positively: does hour `hh` survive the filter? -/
def hourInRange (hour_range : Option (List Nat)) (hh : Int) : Bool :=
  match hour_range with
  | none => true
  | some hr => hr.any (fun h => (h : Int) == hh)

/-- A candidate parquet part: `(file_id, file_name, logical_partition)`. -/
abbrev Cand := String × String × String

/-- The body of the inner hour-folder loop of `list_candidate_parquet_files`: parse
`hour=HH` (skip silently on failure), apply the hour filter, then emit every
non-folder child whose name ends with `.parquet`. -/
def processHourFolder (drive : Drive) (dname : String)
    (hour_range : Option (List Nat)) (hf : DirEntry) : List Cand :=
  match extractHour hf.name with
  | none => []
  | some hh =>
    if !hourInRange hour_range hh then []
    else
      ((drive_list_children drive hf.id (some false)).filter
          (fun p => pyEndsWith p.name ".parquet")).map
        (fun p => (p.id, p.name, dname ++ "/" ++ hf.name))

/-- The body of the per-date loop of `list_candidate_parquet_files`: resolve the
`date=...` folder (`if not date_id: continue`), then walk its hour folders. -/
def processDate (drive : Drive) (feed_root_id : String)
    (hour_range : Option (List Nat)) (d : Date) : List Cand :=
  let dname := date_folder_name d
  let date_id := drive_find_child_folder_id drive feed_root_id dname
  if pyFalsyStrOpt date_id then []
  else
    (drive_list_children drive (date_id.getD "") (some true)).flatMap
      (processHourFolder drive dname hour_range)

/-- Sort order `key=lambda x: (x[2], x[1])`: lexicographic on
(logical_partition, file_name) with Python's code-point string order. -/
def candLeP (a b : Cand) : Prop :=
  a.2.2 < b.2.2 ∨ (a.2.2 = b.2.2 ∧ a.2.1 ≤ b.2.1)

instance : DecidableRel candLeP := fun a b =>
  inferInstanceAs (Decidable (a.2.2 < b.2.2 ∨ (a.2.2 = b.2.2 ∧ a.2.1 ≤ b.2.1)))

/-- Source `list_candidate_parquet_files(service, feed_root_id, start_date, end_date,
start_time, end_time)`: walk `daterange(start_date, end_date)`, expand each date's
hour folders into `.parquet` candidates, and sort by
`(logical_partition, file_name)`.  Python `list.sort` is a stable ascending sort;
it is modelled by the (equally stable) `List.insertionSort`. -/
def list_candidate_parquet_files (drive : Drive) (feed_root_id : String)
    (start_date end_date : Date) (start_time end_time : Option Time) : List Cand :=
  let hour_range := hourRangeOf start_time end_time
  let files_out := (daterange start_date end_date).flatMap
    (processDate drive feed_root_id hour_range)
  List.insertionSort candLeP files_out

/-- A decoded parquet table after `to_pandas()`: a header (column names) and rows.
Cell values are kept as the strings `to_csv` renders (CSV quoting of embedded
separators is not modelled; the claims only count and concatenate lines). -/
structure Table where
  header : List String
  rows : List (List String)
deriving DecidableEq, Repr

/-- Download `drive_download_bytes` followed by `pq.read_table(io.BytesIO(b), columns=...)`
and `.to_pandas()`, as one abstract fallible step: file id and column projection to
a table, or the raised exception's message.  Both a transport failure and a decode
failure abort the export identically, so they are not distinguished. -/
def Fetch : Type := String → Option (List String) → Except String Table

/-- Python `keep_cols if keep_cols else None`: an empty or absent column list means
no projection. -/
def pyOrNone (keep_cols : Option (List String)) : Option (List String) :=
  match keep_cols with
  | none => none
  | some l => if l.isEmpty then none else some l

/-- The lines `df.to_csv(..., header=h, index=False)` appends: the comma-joined
header when `h`, then one comma-joined line per row. -/
def toCsvLines (header : Bool) (t : Table) : List String :=
  (if header then [String.intercalate "," t.header] else []) ++
    t.rows.map (String.intercalate ",")

/-- The local filesystem state the export touches: files as path-to-lines pairs,
plus the log of `mkdir(parents=True, exist_ok=True)` calls. -/
structure FS where
  files : List (String × List String)
  mkdirCalls : List String
deriving DecidableEq, Repr

/-- Source `Path(p).parent` rendered as a string (enough structure for the mkdir log). -/
def parentDir (p : String) : String :=
  let comps := pySplit p '/' 
  if comps.length ≤ 1 then "." else String.intercalate "/" comps.dropLast

/-- Source `out_path.exists()` (the export only ever checks file paths). -/
def FS.existsFile (fs : FS) (p : String) : Bool :=
  (fs.files.lookup p).isSome

/-- Source `out_path.parent.mkdir(parents=True, exist_ok=True)`: recorded in the log. -/
def FS.mkdirParents (fs : FS) (p : String) : FS :=
  { fs with mkdirCalls := fs.mkdirCalls ++ [parentDir p] }

/-- Source `out_path.unlink()`: drop the file. -/
def FS.unlink (fs : FS) (p : String) : FS :=
  { fs with files := fs.files.filter (fun kv => !(kv.1 == p)) }

/-- Replace the binding of `k` in an association list (append when absent). -/
def updateAssoc : List (String × List String) → String → List String →
    List (String × List String)
  | [], k, v => [(k, v)]
  | (k', v') :: rest, k, v =>
    if k' = k then (k, v) :: rest else (k', v') :: updateAssoc rest k v

/-- Source `df.to_csv(out_path, mode="a", ...)`: append lines to the file, creating it
when absent. -/
def FS.appendLines (fs : FS) (p : String) (ls : List String) : FS :=
  match fs.files.lookup p with
  | some old => { fs with files := updateAssoc fs.files p (old ++ ls) }
  | none => { fs with files := fs.files ++ [(p, ls)] }

/-- The lines currently in the file at `p` (a missing file reads as no lines). -/
def FS.readLines (fs : FS) (p : String) : List String :=
  (fs.files.lookup p).getD []

/-- The per-file loop of `export_csv_streaming`, carrying
(`wrote_header`, `total_rows`) exactly as the Python loop does, plus the ordered
log of file ids handed to `drive_download_bytes`.  A raised download/decode
exception stops the loop at once, leaving the filesystem as-is. -/
def exportLoop (fetch : Fetch) (out_path : String) (keep_cols : Option (List String)) :
    List Cand → FS → Bool → Nat → List String →
      FS × List String × Except String Nat
  | [], fs, _, total_rows, downloads => (fs, downloads, Except.ok total_rows)
  | (fid, _, _) :: rest, fs, wrote_header, total_rows, downloads =>
    match fetch fid (pyOrNone keep_cols) with
    | Except.error e => (fs, downloads ++ [fid], Except.error e)
    | Except.ok df =>
      exportLoop fetch out_path keep_cols rest
        (fs.appendLines out_path (toCsvLines (!wrote_header) df))
        true (total_rows + df.rows.length) (downloads ++ [fid])

/-- Source `export_csv_streaming(service, file_tuples, status_box, progress_bar,
output_path, keep_cols)`.  Raises (`Except.error`) on an empty candidate list
before touching the filesystem; otherwise expands the user path, ensures the parent
directory, deletes a pre-existing destination file, and runs the append loop.
Returns the final filesystem, the download log, and either the error or
`(str(out_path), total_rows)` — the row total reported in the final success
message.  `Path.expanduser` depends on the user's home directory, so it is
abstracted as the function argument `expanduser` (the identity on paths without a
leading `~`). -/
def export_csv_streaming (fetch : Fetch) (expanduser : String → String)
    (file_tuples : List Cand) (output_path : String)
    (keep_cols : Option (List String)) (fs : FS) :
    FS × List String × Except String (String × Nat) :=
  if file_tuples.isEmpty then
    (fs, [], Except.error "No parquet files found for selected date range.")
  else
    let out_path := expanduser output_path
    let fs := fs.mkdirParents out_path
    let fs := if fs.existsFile out_path then fs.unlink out_path else fs
    match exportLoop fetch out_path keep_cols file_tuples fs false 0 [] with
    | (fs, downloads, Except.error e) => (fs, downloads, Except.error e)
    | (fs, downloads, Except.ok total_rows) =>
      (fs, downloads, Except.ok (out_path, total_rows))

/-- Fetch every candidate's table in order; `none` as soon as one fetch fails
(used only to phrase hypotheses about fetch outcomes). -/
def fetchAll (fetch : Fetch) (keep_cols : Option (List String)) :
    List Cand → Option (List Table)
  | [] => some []
  | (fid, _, _) :: rest =>
    match fetch fid (pyOrNone keep_cols) with
    | Except.error _ => none
    | Except.ok df => (fetchAll fetch keep_cols rest).map (fun ts => df :: ts)

/-- The CSV lines a run of successful appends produces, given the value of
`wrote_header` before the first of them. -/
def csvLinesFrom (wrote_header : Bool) : List Table → List String
  | [] => []
  | t :: ts => toCsvLines (!wrote_header) t ++ csvLinesFrom true ts

/-- Total data-row count of a list of decoded tables. -/
def sumRows (ts : List Table) : Nat :=
  (ts.map (fun t => t.rows.length)).sum

/-- The filesystem after appending each table of `ts` in turn, starting from the
given `wrote_header` value. -/
def appendRun (fs : FS) (out_path : String) (wrote_header : Bool) :
    List Table → FS
  | [] => fs
  | t :: ts =>
    appendRun (fs.appendLines out_path (toCsvLines (!wrote_header) t)) out_path true ts

/-- A small concrete Drive tree used to instantiate the general theorems:
`feedroot/date=2024-01-01/hour=05` holding one parquet part (plus one malformed
folder name and one non-parquet file). -/
def exDrive : Drive := fun pid =>
  if pid = "feedroot" then [⟨"dateid", "date=2024-01-01", true⟩]
  else if pid = "dateid" then
    [⟨"hourid5", "hour=05", true⟩, ⟨"junkid", "notes", true⟩]
  else if pid = "hourid5" then
    [⟨"p0", "part-0.parquet", false⟩, ⟨"x0", "readme.txt", false⟩]
  else []

/-- A concrete Drive tree with the full `root/miway/raw/vehicle_positions` chain. -/
def exDriveChain : Drive := fun pid =>
  if pid = "root" then [⟨"agencyid", "miway", true⟩]
  else if pid = "agencyid" then [⟨"rawid", "raw", true⟩]
  else if pid = "rawid" then [⟨"feedid", "vehicle_positions", true⟩]
  else []

/-- A concrete fetch used to instantiate the export theorems: two decodable files
and an always-failing one. -/
def exFetch : Fetch := fun fid _ =>
  if fid = "p0" then Except.ok ⟨["a", "b"], [["1", "2"], ["3", "4"]]⟩
  else if fid = "p1" then Except.ok ⟨["a", "b"], [["5", "6"]]⟩
  else Except.error "boom"

theorem lookup_updateAssoc_self (l : List (String × List String)) (k : String)
    (v : List String) : (updateAssoc l k v).lookup k = some v := by
  induction l with
  | nil => simp [updateAssoc, List.lookup]
  | cons kv rest ih =>
    obtain ⟨k', v'⟩ := kv
    by_cases h : k' = k
    · subst h
      simp [updateAssoc, List.lookup]
    · simp only [updateAssoc, if_neg h, List.lookup]
      have : (k == k') = false := by
        simpa [beq_iff_eq] using fun hh => h hh.symm
      rw [this]
      exact ih

theorem lookup_append_single (l : List (String × List String)) (k : String)
    (v : List String) (h : l.lookup k = none) :
    (l ++ [(k, v)]).lookup k = some v := by
  induction l with
  | nil => simp [List.lookup]
  | cons kv rest ih =>
    obtain ⟨k', v'⟩ := kv
    simp only [List.lookup] at h ⊢
    cases hk : (k == k') with
    | true => rw [hk] at h; exact absurd h (by simp)
    | false => rw [hk] at h; exact ih h

theorem lookup_filter_ne (l : List (String × List String)) (k : String) :
    (l.filter (fun kv => !(kv.1 == k))).lookup k = none := by
  induction l with
  | nil => simp [List.lookup]
  | cons kv rest ih =>
    obtain ⟨k', v'⟩ := kv
    by_cases h : k' = k
    · subst h
      simpa [List.filter] using ih
    · have hne : ((k', v').1 == k) = false := by simpa [beq_iff_eq] using h
      simp only [List.filter, hne, Bool.not_false]
      simp only [List.lookup]
      have : (k == k') = false := by
        simpa [beq_iff_eq] using fun hh => h hh.symm
      rw [this]
      exact ih

theorem readLines_appendLines (fs : FS) (p : String) (ls : List String) :
    (fs.appendLines p ls).readLines p = fs.readLines p ++ ls := by
  unfold FS.appendLines FS.readLines
  cases h : fs.files.lookup p with
  | none => simp [h, lookup_append_single fs.files p ls h]
  | some old => simp [h, lookup_updateAssoc_self]

theorem readLines_unlink (fs : FS) (p : String) :
    (fs.unlink p).readLines p = [] := by
  unfold FS.unlink FS.readLines
  simp [lookup_filter_ne]

theorem readLines_prepare (fs : FS) (p : String) :
    FS.readLines (if fs.existsFile p then fs.unlink p else fs) p = [] := by
  by_cases h : fs.existsFile p = true
  · simp [h, readLines_unlink]
  · have hnone : fs.files.lookup p = none := by
      unfold FS.existsFile at h
      cases hl : fs.files.lookup p with
      | none => rfl
      | some v => rw [hl] at h; simp at h
    simp [h, FS.readLines, hnone]

theorem Date.le_of_not_lt {a b : Date} (h : Date.lt b a = false) :
    Date.le a b = true := by
  obtain ⟨ya, ma, da⟩ := a
  obtain ⟨yb, mb, db⟩ := b
  simp only [Date.lt, Bool.or_eq_false_iff, Bool.and_eq_false_iff,
    decide_eq_false_iff_not, not_lt] at h
  simp only [Date.le, Bool.or_eq_true, Bool.and_eq_true, decide_eq_true_eq]
  omega

theorem Date.not_le_of_lt {a b : Date} (h : Date.lt b a = true) :
    Date.le a b = false := by
  obtain ⟨ya, ma, da⟩ := a
  obtain ⟨yb, mb, db⟩ := b
  simp only [Date.lt, Bool.or_eq_true, Bool.and_eq_true, decide_eq_true_eq] at h
  simp only [Date.le, Bool.or_eq_false_iff, Bool.and_eq_false_iff,
    decide_eq_false_iff_not, not_lt]
  omega

theorem Date.lt_asymm' {a b : Date} (h : Date.lt a b = true) :
    Date.lt b a = false := by
  obtain ⟨ya, ma, da⟩ := a
  obtain ⟨yb, mb, db⟩ := b
  simp only [Date.lt, Bool.or_eq_true, Bool.and_eq_true, decide_eq_true_eq] at h
  simp only [Date.lt, Bool.or_eq_false_iff, Bool.and_eq_false_iff,
    decide_eq_false_iff_not, not_lt]
  omega

theorem Date.eq_of_not_lt_of_not_lt {a b : Date} (h1 : Date.lt a b = false)
    (h2 : Date.lt b a = false) : a = b := by
  obtain ⟨ya, ma, da⟩ := a
  obtain ⟨yb, mb, db⟩ := b
  simp only [Date.lt, Bool.or_eq_false_iff, Bool.and_eq_false_iff,
    decide_eq_false_iff_not, not_lt] at h1 h2
  simp only [Date.mk.injEq]
  omega

theorem dateMin_comm (a b : Date) : dateMin a b = dateMin b a := by
  unfold dateMin
  cases hba : Date.lt b a with
  | false =>
    cases hab : Date.lt a b with
    | false => simp [Date.eq_of_not_lt_of_not_lt hab hba]
    | true => simp
  | true =>
    rw [Date.lt_asymm' hba]
    simp

theorem dateMax_comm (a b : Date) : dateMax a b = dateMax b a := by
  unfold dateMax
  cases hab : Date.lt a b with
  | false =>
    cases hba : Date.lt b a with
    | false => simp [Date.eq_of_not_lt_of_not_lt hab hba]
    | true => simp
  | true =>
    rw [Date.lt_asymm' hab]
    simp

theorem daterange_empty_of_reversed {d0 d1 : Date} (h : Date.lt d1 d0 = true) :
    daterange d0 d1 = [] := by
  unfold daterange
  cases hf : d1.toOrdinal + 1 - d0.toOrdinal with
  | zero => rfl
  | succ n => simp [daterangeAux, Date.not_le_of_lt h]

theorem readLines_appendRun (out_path : String) (ts : List Table) :
    ∀ (fs : FS) (wrote_header : Bool),
      (appendRun fs out_path wrote_header ts).readLines out_path =
        fs.readLines out_path ++ csvLinesFrom wrote_header ts := by
  induction ts with
  | nil => intro fs w; simp [appendRun, csvLinesFrom]
  | cons t ts ih =>
    intro fs w
    simp [appendRun, csvLinesFrom, ih, readLines_appendLines, List.append_assoc]

theorem csvLinesFrom_true_eq (ts : List Table) :
    csvLinesFrom true ts =
      ts.flatMap (fun u => u.rows.map (String.intercalate ",")) := by
  induction ts with
  | nil => simp [csvLinesFrom]
  | cons t ts ih => simp [csvLinesFrom, toCsvLines, ih]

theorem csvLinesFrom_false_cons (t : Table) (ts : List Table) :
    csvLinesFrom false (t :: ts) =
      String.intercalate "," t.header ::
        (t :: ts).flatMap (fun u => u.rows.map (String.intercalate ",")) := by
  simp [csvLinesFrom, toCsvLines, csvLinesFrom_true_eq]

theorem length_flatMap_rows (ts : List Table) :
    (ts.flatMap (fun u => u.rows.map (String.intercalate ","))).length = sumRows ts := by
  induction ts with
  | nil => simp [sumRows]
  | cons t ts ih =>
    simp only [List.flatMap_cons, List.length_append, List.length_map, ih, sumRows,
      List.map_cons, List.sum_cons]

theorem exportLoop_ok (fetch : Fetch) (out_path : String)
    (keep_cols : Option (List String)) (tuples : List Cand) :
    ∀ (ts : List Table) (fs : FS) (wrote_header : Bool) (total_rows : Nat)
      (downloads : List String),
      fetchAll fetch keep_cols tuples = some ts →
      exportLoop fetch out_path keep_cols tuples fs wrote_header total_rows downloads =
        (appendRun fs out_path wrote_header ts,
          downloads ++ tuples.map (fun c => c.1),
          Except.ok (total_rows + sumRows ts)) := by
  induction tuples with
  | nil =>
    intro ts fs w total dls h
    simp [fetchAll] at h
    subst h
    simp [exportLoop, appendRun, sumRows]
  | cons c rest ih =>
    intro ts fs w total dls h
    obtain ⟨fid, fname, logical⟩ := c
    simp only [fetchAll] at h
    cases hf : fetch fid (pyOrNone keep_cols) with
    | error e => rw [hf] at h; simp at h
    | ok df =>
      rw [hf] at h
      simp only [Option.map_eq_some'] at h
      obtain ⟨ts', hts', rfl⟩ := h
      simp only [exportLoop, hf]
      rw [ih ts' _ true (total + df.rows.length) (dls ++ [fid]) hts']
      simp [appendRun, sumRows, List.append_assoc]
      omega

theorem exportLoop_error (fetch : Fetch) (out_path : String)
    (keep_cols : Option (List String)) (pre : List Cand) :
    ∀ (ts : List Table) (bad : Cand) (rest : List Cand) (fs : FS)
      (wrote_header : Bool) (total_rows : Nat) (downloads : List String) (e : String),
      fetchAll fetch keep_cols pre = some ts →
      fetch bad.1 (pyOrNone keep_cols) = Except.error e →
      exportLoop fetch out_path keep_cols (pre ++ bad :: rest) fs wrote_header
          total_rows downloads =
        (appendRun fs out_path wrote_header ts,
          downloads ++ pre.map (fun c => c.1) ++ [bad.1],
          Except.error e) := by
  induction pre with
  | nil =>
    intro ts bad rest fs w total dls e h hbad
    simp [fetchAll] at h
    subst h
    obtain ⟨fid, fname, logical⟩ := bad
    simp only [List.nil_append, exportLoop]
    rw [hbad]
    simp [appendRun]
  | cons c pre' ih =>
    intro ts bad rest fs w total dls e h hbad
    obtain ⟨fid, fname, logical⟩ := c
    simp only [fetchAll] at h
    cases hf : fetch fid (pyOrNone keep_cols) with
    | error e' => rw [hf] at h; simp at h
    | ok df =>
      rw [hf] at h
      simp only [Option.map_eq_some'] at h
      obtain ⟨ts', hts', rfl⟩ := h
      rw [List.cons_append]
      simp only [exportLoop, hf]
      rw [ih ts' bad rest _ true (total + df.rows.length) (dls ++ [fid]) e hts' hbad]
      simp [appendRun, List.append_assoc]

theorem candLeP_total (a b : Cand) : candLeP a b ∨ candLeP b a := by
  unfold candLeP
  rcases lt_trichotomy a.2.2 b.2.2 with h | h | h
  · exact Or.inl (Or.inl h)
  · rcases le_total a.2.1 b.2.1 with h' | h'
    · exact Or.inl (Or.inr ⟨h, h'⟩)
    · exact Or.inr (Or.inr ⟨h.symm, h'⟩)
  · exact Or.inr (Or.inl h)

theorem candLeP_trans (a b c : Cand) : candLeP a b → candLeP b c → candLeP a c := by
  unfold candLeP
  rintro (h1 | ⟨e1, l1⟩) (h2 | ⟨e2, l2⟩)
  · exact Or.inl (h1.trans h2)
  · exact Or.inl (e2 ▸ h1)
  · exact Or.inl (e1 ▸ h2)
  · exact Or.inr ⟨e1.trans e2, l1.trans l2⟩

instance : IsTotal Cand candLeP := ⟨candLeP_total⟩

instance : IsTrans Cand candLeP := ⟨candLeP_trans⟩

/-- Claim C1: when every candidate's download and decode succeeds (and there is at
least one candidate), `export_csv_streaming` returns success, the destination file
holds exactly one header line (the first table's header) followed by the
concatenation of all tables' data rows, the data-row count is the sum of the
per-file row counts, and the reported `total_rows` equals that sum. -/
theorem export_csv_streaming_rows (fetch : Fetch) (expanduser : String → String)
    (file_tuples : List Cand) (output_path : String)
    (keep_cols : Option (List String)) (fs : FS) (t : Table) (ts : List Table)
    (hall : fetchAll fetch keep_cols file_tuples = some (t :: ts)) :
    (export_csv_streaming fetch expanduser file_tuples output_path keep_cols fs).2.2 =
      Except.ok (expanduser output_path, sumRows (t :: ts)) ∧
    FS.readLines
        (export_csv_streaming fetch expanduser file_tuples output_path keep_cols fs).1
        (expanduser output_path) =
      String.intercalate "," t.header ::
        (t :: ts).flatMap (fun u => u.rows.map (String.intercalate ",")) ∧
    (FS.readLines
        (export_csv_streaming fetch expanduser file_tuples output_path keep_cols fs).1
        (expanduser output_path)).length = 1 + sumRows (t :: ts) := by
  cases file_tuples with
  | nil => simp [fetchAll] at hall
  | cons c cs =>
    have hrw :
        export_csv_streaming fetch expanduser (c :: cs) output_path keep_cols fs =
          (appendRun
              (if (fs.mkdirParents (expanduser output_path)).existsFile
                    (expanduser output_path) then
                  (fs.mkdirParents (expanduser output_path)).unlink (expanduser output_path)
                else fs.mkdirParents (expanduser output_path))
              (expanduser output_path) false (t :: ts),
            [] ++ (c :: cs).map (fun x => x.1),
            Except.ok (expanduser output_path, 0 + sumRows (t :: ts))) := by
      unfold export_csv_streaming
      simp only [List.isEmpty_cons, Bool.false_eq_true, if_false]
      rw [exportLoop_ok fetch (expanduser output_path) keep_cols (c :: cs) (t :: ts) _
        false 0 [] hall]
    rw [hrw]
    refine ⟨by simp, ?_, ?_⟩
    · simp only [readLines_appendRun, readLines_prepare, List.nil_append,
        csvLinesFrom_false_cons]
    · simp only [readLines_appendRun, readLines_prepare, List.nil_append,
        csvLinesFrom_false_cons, List.length_cons, length_flatMap_rows]
      omega

/-- Claim C1 witness: a concrete two-file export. -/
theorem export_csv_streaming_rows_witness :
    (export_csv_streaming exFetch id [("p0", "f0", "l"), ("p1", "f1", "l")] "out.csv"
        none ⟨[], []⟩).2.2 =
      Except.ok (id "out.csv",
        sumRows [⟨["a", "b"], [["1", "2"], ["3", "4"]]⟩, ⟨["a", "b"], [["5", "6"]]⟩]) ∧
    FS.readLines
        (export_csv_streaming exFetch id [("p0", "f0", "l"), ("p1", "f1", "l")] "out.csv"
          none ⟨[], []⟩).1 (id "out.csv") =
      String.intercalate "," ["a", "b"] ::
        ([⟨["a", "b"], [["1", "2"], ["3", "4"]]⟩, (⟨["a", "b"], [["5", "6"]]⟩ : Table)]).flatMap
          (fun u => u.rows.map (String.intercalate ",")) ∧
    (FS.readLines
        (export_csv_streaming exFetch id [("p0", "f0", "l"), ("p1", "f1", "l")] "out.csv"
          none ⟨[], []⟩).1 (id "out.csv")).length =
      1 + sumRows [⟨["a", "b"], [["1", "2"], ["3", "4"]]⟩, ⟨["a", "b"], [["5", "6"]]⟩] :=
  export_csv_streaming_rows exFetch id [("p0", "f0", "l"), ("p1", "f1", "l")] "out.csv"
    none ⟨[], []⟩ ⟨["a", "b"], [["1", "2"], ["3", "4"]]⟩ [⟨["a", "b"], [["5", "6"]]⟩] rfl

/-- Claim C2 counterexample: `list_candidate_parquet_files` is NOT invariant under
swapping reversed date bounds — with `start_date > end_date` it returns the empty
list, while the pre-swapped call finds the existing candidate. -/
theorem list_candidate_swap_counterexample :
    list_candidate_parquet_files exDrive "feedroot" ⟨2024, 1, 2⟩ ⟨2024, 1, 1⟩ none none ≠
      list_candidate_parquet_files exDrive "feedroot" ⟨2024, 1, 1⟩ ⟨2024, 1, 2⟩ none none := by
  decide

/-- Claim C2 amended: with `start_date > end_date` the enumeration returns the
empty list (the date walk yields no dates); bound-order insensitivity holds at the
call site, which always passes `(min(start_d, end_d), max(start_d, end_d))` — that
composition is symmetric in the two user-supplied dates. -/
theorem list_candidate_reversed_empty (drive : Drive) (feed_root_id : String)
    (d0 d1 : Date) (start_time end_time : Option Time)
    (h : Date.lt d1 d0 = true) :
    list_candidate_parquet_files drive feed_root_id d0 d1 start_time end_time = [] ∧
    ∀ a b : Date,
      list_candidate_parquet_files drive feed_root_id (dateMin a b) (dateMax a b)
          start_time end_time =
        list_candidate_parquet_files drive feed_root_id (dateMin b a) (dateMax b a)
          start_time end_time := by
  constructor
  · unfold list_candidate_parquet_files
    rw [daterange_empty_of_reversed h]
    rfl
  · intro a b
    rw [dateMin_comm a b, dateMax_comm a b]

/-- Claim C2 amended witness: concrete reversed bounds yield the empty list, and
the min/max call-site composition is swap-symmetric. -/
theorem list_candidate_reversed_empty_witness :
    list_candidate_parquet_files exDrive "feedroot" ⟨2024, 1, 2⟩ ⟨2024, 1, 1⟩ none none = [] ∧
    ∀ a b : Date,
      list_candidate_parquet_files exDrive "feedroot" (dateMin a b) (dateMax a b)
          none none =
        list_candidate_parquet_files exDrive "feedroot" (dateMin b a) (dateMax b a)
          none none :=
  list_candidate_reversed_empty exDrive "feedroot" ⟨2024, 1, 2⟩ ⟨2024, 1, 1⟩ none none
    (by decide)

/-- Claim C3: on an empty candidate list the export fails with the "no files"
error and, if no file existed at a path beforehand, none exists there afterwards
(the filesystem is returned untouched). -/
theorem export_empty_no_output (fetch : Fetch) (expanduser : String → String)
    (output_path : String) (keep_cols : Option (List String)) (fs : FS) (p : String)
    (h : fs.existsFile p = false) :
    (export_csv_streaming fetch expanduser [] output_path keep_cols fs).2.2 =
      Except.error "No parquet files found for selected date range." ∧
    ((export_csv_streaming fetch expanduser [] output_path keep_cols fs).1).existsFile p =
      false := by
  constructor
  · rfl
  · simpa [export_csv_streaming] using h

/-- Claim C3 witness. -/
theorem export_empty_no_output_witness :
    (export_csv_streaming exFetch id [] "out.csv" none ⟨[], []⟩).2.2 =
      Except.error "No parquet files found for selected date range." ∧
    ((export_csv_streaming exFetch id [] "out.csv" none ⟨[], []⟩).1).existsFile "out.csv" =
      false :=
  export_empty_no_output exFetch id "out.csv" none ⟨[], []⟩ "out.csv" rfl

/-- Claim C4: with both hour bounds supplied, the hour filter accepts exactly the
hours in `min..max` inclusive (equal bounds give the singleton, not the empty set);
with either bound omitted the filter is absent and every hour passes. -/
theorem hour_filter_spec (t0 t1 : Time) :
    (∀ hh : Int,
      hourInRange (hourRangeOf (some t0) (some t1)) hh = true ↔
        ((min (time_to_hour t0) (time_to_hour t1) : Int) ≤ hh ∧
          hh ≤ (max (time_to_hour t0) (time_to_hour t1) : Int))) ∧
    (time_to_hour t0 = time_to_hour t1 →
      hourRangeOf (some t0) (some t1) = some [time_to_hour t0]) ∧
    (∀ st : Option Time, hourRangeOf st none = none) ∧
    (∀ et : Option Time, hourRangeOf none et = none) ∧
    (∀ hh : Int, hourInRange none hh = true) := by
  refine ⟨?_, ?_, ?_, ?_, ?_⟩
  · intro hh
    simp only [hourRangeOf, hourInRange, pyRange, List.any_eq_true, List.mem_range'_1,
      beq_iff_eq]
    constructor
    · rintro ⟨x, ⟨hx1, hx2⟩, rfl⟩
      constructor <;> [push_cast; push_cast] <;> omega
    · rintro ⟨h1, h2⟩
      refine ⟨hh.toNat, ⟨?_, ?_⟩, ?_⟩ <;> omega
  · intro h
    simp [hourRangeOf, pyRange, h, Nat.min_self, Nat.max_self, Nat.add_sub_cancel_left,
      List.range'_one]
  · intro st
    cases st <;> rfl
  · intro et
    cases et <;> rfl
  · intro hh
    rfl

/-- Claim C4 witness: equal bounds give a singleton filter, and the hour filter for
bounds 7 and 3 accepts hour 5. -/
theorem hour_filter_spec_witness :
    hourRangeOf (some ⟨5, 0⟩) (some ⟨5, 0⟩) = some [time_to_hour ⟨5, 0⟩] ∧
    (hourInRange (hourRangeOf (some ⟨7, 30⟩) (some ⟨3, 0⟩)) 5 = true ↔
      ((min (time_to_hour ⟨7, 30⟩) (time_to_hour ⟨3, 0⟩) : Int) ≤ 5 ∧
        (5 : Int) ≤ (max (time_to_hour ⟨7, 30⟩) (time_to_hour ⟨3, 0⟩) : Int))) :=
  ⟨(hour_filter_spec ⟨5, 0⟩ ⟨5, 0⟩).2.1 rfl, (hour_filter_spec ⟨7, 30⟩ ⟨3, 0⟩).1 5⟩

/-- Claim C5: the candidate list is sorted ascending by
`(logical_partition, file_name)`.  Determinism — that two calls over the same tree
contents return the identical ordering — is immediate here:
`list_candidate_parquet_files` is a pure function of the modelled tree. -/
theorem list_candidate_sorted (drive : Drive) (feed_root_id : String)
    (start_date end_date : Date) (start_time end_time : Option Time) :
    List.Sorted candLeP
      (list_candidate_parquet_files drive feed_root_id start_date end_date
        start_time end_time) := by
  unfold list_candidate_parquet_files
  exact List.sorted_insertionSort candLeP _

/-- Claim C6: `resolve_folder_path` is three sequential child-folder lookups
(agency slug, then "raw", then the feed name); it returns `none` whenever any
lookup finds no match, and returns a feed-folder id only when all three lookups
succeeded in sequence. -/
theorem resolve_folder_path_spec (drive : Drive) (root_id agency_slug feed : String) :
    (drive_find_child_folder_id drive root_id agency_slug = none →
      resolve_folder_path drive root_id agency_slug feed = none) ∧
    (∀ agency_id,
      drive_find_child_folder_id drive root_id agency_slug = some agency_id →
      drive_find_child_folder_id drive agency_id "raw" = none →
      resolve_folder_path drive root_id agency_slug feed = none) ∧
    (∀ agency_id raw_id,
      drive_find_child_folder_id drive root_id agency_slug = some agency_id →
      drive_find_child_folder_id drive agency_id "raw" = some raw_id →
      drive_find_child_folder_id drive raw_id feed = none →
      resolve_folder_path drive root_id agency_slug feed = none) ∧
    (∀ feed_id, resolve_folder_path drive root_id agency_slug feed = some feed_id →
      ∃ agency_id raw_id,
        drive_find_child_folder_id drive root_id agency_slug = some agency_id ∧
        drive_find_child_folder_id drive agency_id "raw" = some raw_id ∧
        drive_find_child_folder_id drive raw_id feed = some feed_id) := by
  refine ⟨?_, ?_, ?_, ?_⟩
  · intro h
    simp [resolve_folder_path, h]
  · intro aid h1 h2
    unfold resolve_folder_path
    rw [h1]
    simp [h2, ite_self]
  · intro aid rid h1 h2 h3
    unfold resolve_folder_path
    rw [h1]
    simp [h2, h3, ite_self]
  · intro fid h
    unfold resolve_folder_path at h
    cases h1 : drive_find_child_folder_id drive root_id agency_slug with
    | none => rw [h1] at h; simp at h
    | some aid =>
      rw [h1] at h
      by_cases ha : aid = ""
      · simp [ha] at h
      · simp only [ha, if_false] at h
        cases h2 : drive_find_child_folder_id drive aid "raw" with
        | none => rw [h2] at h; simp at h
        | some rid =>
          rw [h2] at h
          by_cases hr : rid = ""
          · simp [hr] at h
          · simp only [hr, if_false] at h
            exact ⟨aid, rid, rfl, h2, h⟩

/-- Claim C6 witness: a failing first lookup yields `none`, and a fully present
chain resolves to the feed folder id. -/
theorem resolve_folder_path_spec_witness :
    resolve_folder_path exDriveChain "nothere" "miway" "vehicle_positions" = none ∧
    ∃ agency_id raw_id,
      drive_find_child_folder_id exDriveChain "root" "miway" = some agency_id ∧
      drive_find_child_folder_id exDriveChain agency_id "raw" = some raw_id ∧
      drive_find_child_folder_id exDriveChain raw_id "vehicle_positions" = some "feedid" :=
  ⟨(resolve_folder_path_spec exDriveChain "nothere" "miway" "vehicle_positions").1 rfl,
    (resolve_folder_path_spec exDriveChain "root" "miway" "vehicle_positions").2.2.2
      "feedid" rfl⟩

/-- Claim C7: a date in the range with no matching `date=...` folder contributes
zero candidates (silently), and an hour folder whose name does not parse as
`hour=<int>` is skipped silently; the enumeration itself is total, so it never
fails on missing or malformed partition folders. -/
theorem enumeration_skips_missing (drive : Drive) (feed_root_id : String)
    (hour_range : Option (List Nat)) :
    (∀ d : Date,
      drive_find_child_folder_id drive feed_root_id (date_folder_name d) = none →
        processDate drive feed_root_id hour_range d = []) ∧
    (∀ (dname : String) (hf : DirEntry),
      extractHour hf.name = none →
        processHourFolder drive dname hour_range hf = []) := by
  constructor
  · intro d h
    simp [processDate, h, pyFalsyStrOpt]
  · intro dname hf h
    simp [processHourFolder, h]

/-- Claim C7 witness: a missing date folder and a malformed hour-folder name each
contribute nothing. -/
theorem enumeration_skips_missing_witness :
    processDate exDrive "feedroot" none ⟨2024, 1, 2⟩ = [] ∧
    processHourFolder exDrive "date=2024-01-01" none ⟨"junkid", "notes", true⟩ = [] :=
  ⟨(enumeration_skips_missing exDrive "feedroot" none).1 ⟨2024, 1, 2⟩ (by decide),
    (enumeration_skips_missing exDrive "feedroot" none).2 "date=2024-01-01"
      ⟨"junkid", "notes", true⟩ (by decide)⟩

/-- Claim C8: if one candidate's download/decode fails, the export aborts at once
with that error: every earlier candidate was downloaded exactly once, the failing
one was attempted once, none of the later ones was touched, and the rows already
appended for the earlier candidates remain in the partially written destination
file. -/
theorem export_abort_on_failure (fetch : Fetch) (expanduser : String → String)
    (pre : List Cand) (bad : Cand) (rest : List Cand) (output_path : String)
    (keep_cols : Option (List String)) (fs : FS) (ts : List Table) (e : String)
    (hpre : fetchAll fetch keep_cols pre = some ts)
    (hbad : fetch bad.1 (pyOrNone keep_cols) = Except.error e) :
    (export_csv_streaming fetch expanduser (pre ++ bad :: rest) output_path keep_cols
        fs).2.2 = Except.error e ∧
    (export_csv_streaming fetch expanduser (pre ++ bad :: rest) output_path keep_cols
        fs).2.1 = pre.map (fun c => c.1) ++ [bad.1] ∧
    FS.readLines
        (export_csv_streaming fetch expanduser (pre ++ bad :: rest) output_path keep_cols
          fs).1 (expanduser output_path) =
      csvLinesFrom false ts := by
  have hne : (pre ++ bad :: rest).isEmpty = false := by
    cases pre <;> simp
  have hrw :
      export_csv_streaming fetch expanduser (pre ++ bad :: rest) output_path keep_cols fs =
        (appendRun
            (if (fs.mkdirParents (expanduser output_path)).existsFile
                  (expanduser output_path) then
                (fs.mkdirParents (expanduser output_path)).unlink (expanduser output_path)
              else fs.mkdirParents (expanduser output_path))
            (expanduser output_path) false ts,
          [] ++ pre.map (fun c => c.1) ++ [bad.1],
          Except.error e) := by
    unfold export_csv_streaming
    rw [hne]
    simp only [Bool.false_eq_true, if_false]
    rw [exportLoop_error fetch (expanduser output_path) keep_cols pre ts bad rest _
      false 0 [] e hpre hbad]
  rw [hrw]
  refine ⟨rfl, by simp, ?_⟩
  simp only [readLines_appendRun, readLines_prepare, List.nil_append]

/-- Claim C8 witness: the second of three candidates fails; the first file's rows
are on disk, the third file is never downloaded. -/
theorem export_abort_on_failure_witness :
    (export_csv_streaming exFetch id
        ([("p0", "f0", "l")] ++ ("bogus", "fb", "l") :: [("p1", "f1", "l")]) "out.csv"
        none ⟨[], []⟩).2.2 = Except.error "boom" ∧
    (export_csv_streaming exFetch id
        ([("p0", "f0", "l")] ++ ("bogus", "fb", "l") :: [("p1", "f1", "l")]) "out.csv"
        none ⟨[], []⟩).2.1 =
      [("p0", "f0", "l")].map (fun c : Cand => c.1) ++ [("bogus", "fb", "l").1] ∧
    FS.readLines
        (export_csv_streaming exFetch id
          ([("p0", "f0", "l")] ++ ("bogus", "fb", "l") :: [("p1", "f1", "l")]) "out.csv"
          none ⟨[], []⟩).1 (id "out.csv") =
      csvLinesFrom false [⟨["a", "b"], [["1", "2"], ["3", "4"]]⟩] :=
  export_abort_on_failure exFetch id [("p0", "f0", "l")] ("bogus", "fb", "l")
    [("p1", "f1", "l")] "out.csv" none ⟨[], []⟩ [⟨["a", "b"], [["1", "2"], ["3", "4"]]⟩]
    "boom" rfl rfl

/-- Claim C10: on an empty candidate list the error is raised before any
filesystem operation — the returned filesystem is the input one unchanged (no
mkdir call is logged and any file already at the destination is untouched), the
download log is empty, and the result is the "no files" error. -/
theorem export_empty_fs_unchanged (fetch : Fetch) (expanduser : String → String)
    (output_path : String) (keep_cols : Option (List String)) (fs : FS) :
    export_csv_streaming fetch expanduser [] output_path keep_cols fs =
      (fs, [], Except.error "No parquet files found for selected date range.") := by
  rfl

end MiWay
